import Mathlib

/-!
Verification development for the Bear Notes MCP server (src/bear-mcp-server.js
and src/create-index.js).  The server reads the Bear note database (table
ZSFNOTE, tag table ZSFNOTETAG, join table Z_5TAGS) and exposes search and
retrieval tools.  Helper functions imported from src/utils.js are not part of
the repository snapshot; definitions for them are modelled from the
specification and carry a doc comment saying so.
-/

namespace BearMCP

/-! ## Data model: rows of the Bear database -/

/-- A row of the ZSFNOTE table, with the columns the server reads. -/
structure NoteRow where
  z_pk : Nat
  zuniqueidentifier : String
  ztitle : String
  ztext : String
  zsubtitle : String
  zcreationdate : Option Int
  zmodificationdate : Int
  ztrashed : Nat
deriving Repr, DecidableEq

/-- A row of the ZSFNOTETAG table. -/
structure TagRow where
  z_pk : Nat
  ztitle : String
deriving Repr, DecidableEq

/-- A row of the Z_5TAGS note-tag join table. -/
structure JoinRow where
  z_5notes : Nat
  z_13tags : Nat
deriving Repr, DecidableEq

/-- The Bear database as read by the server: the three tables it queries. -/
structure BearDb where
  notes : List NoteRow
  tags : List TagRow
  joins : List JoinRow
deriving Repr, DecidableEq

/-! ## SQL semantics used by the inline queries -/

/-- Whether `pat` occurs at the head of `l`. -/
def matchHere : List Char → List Char → Bool
  | [], _ => true
  | _ :: _, [] => false
  | a :: as, b :: bs => a == b && matchHere as bs

/-- Whether `pat` occurs somewhere inside `l` as a contiguous run. -/
def matchSomewhere (pat : List Char) : List Char → Bool
  | [] => matchHere pat []
  | l@(_ :: rest) => matchHere pat l || matchSomewhere pat rest

/-- ASCII case folding, the folding SQLite applies in `LIKE` matching. -/
def lowChar (c : Char) : Char :=
  if 65 ≤ c.toNat ∧ c.toNat ≤ 90 then Char.ofNat (c.toNat + 32) else c

/-- SQLite `column LIKE '%fragment%'`: case-insensitive containment of the
fragment in the column value (SQLite folds ASCII case for the match). -/
def sqlLike (s frag : String) : Bool :=
  matchSomewhere (frag.toList.map lowChar) (s.toList.map lowChar)

/-- The order of `ORDER BY ZMODIFICATIONDATE DESC`.  SQLite sorts by a
stable refinement of this total preorder; we embed it with a stable
insertion sort. -/
def modDescRel (a b : NoteRow) : Prop :=
  b.zmodificationdate ≤ a.zmodificationdate

instance : DecidableRel modDescRel :=
  fun a b => inferInstanceAs (Decidable (b.zmodificationdate ≤ a.zmodificationdate))

instance : IsTotal NoteRow modDescRel :=
  ⟨fun a b => Int.le_total b.zmodificationdate a.zmodificationdate⟩

instance : IsTrans NoteRow modDescRel :=
  ⟨fun _ _ _ hab hbc => le_trans hbc hab⟩

/-- The row filter of the `find_note_by_partial_id` query:
`ZTRASHED = 0 AND (ZUNIQUEIDENTIFIER LIKE ? OR ZTITLE LIKE ?)` with the
parameter bound to `%partial_id%`. -/
def partialIdMatch (frag : String) (n : NoteRow) : Bool :=
  n.ztrashed == 0 && (sqlLike n.zuniqueidentifier frag || sqlLike n.ztitle frag)

/-- The rows produced by the SELECT in the `find_note_by_partial_id`
handler, before column projection: filter on trash flag and LIKE patterns,
order by modification date descending, `LIMIT 10`. -/
def partialIdRows (db : BearDb) (frag : String) : List NoteRow :=
  (List.insertionSort modDescRel (db.notes.filter (partialIdMatch frag))).take 10

/-- The projected columns of the `find_note_by_partial_id` SELECT. -/
structure SelectedNote where
  id : String
  title : String
  content : String
  subtitle : String
  creation_date : Option Int
deriving Repr, DecidableEq

/-- Column projection of the SELECT. -/
def toSelected (n : NoteRow) : SelectedNote :=
  { id := n.zuniqueidentifier
    title := n.ztitle
    content := n.ztext
    subtitle := n.zsubtitle
    creation_date := n.zcreationdate }

/-- The full result list of the SELECT in the `find_note_by_partial_id`
handler. -/
def partialIdQuery (db : BearDb) (frag : String) : List SelectedNote :=
  (partialIdRows db frag).map toSelected

/-- The per-note tag SELECT of the `find_note_by_partial_id` handler:
join Z_5TAGS with ZSFNOTETAG and ZSFNOTE and keep tag titles of rows whose
note has the given unique identifier. -/
def tagQueryRows (db : BearDb) (noteId : String) : List String :=
  db.joins.flatMap (fun j =>
    (db.tags.filter (fun zt => zt.z_pk == j.z_13tags)).flatMap (fun zt =>
      ((db.notes.filter (fun zn =>
          zn.z_pk == j.z_5notes && zn.zuniqueidentifier == noteId)).map
        (fun _ => zt.ztitle))))

/-! ## Timestamp conversion

The handler runs `new Date((note.creation_date + 978307200) * 1000)
.toISOString()`, guarded by `if (note.creation_date)`.  978307200 is the
number of seconds from the Unix epoch to 2001-01-01T00:00:00Z.  We embed
`Date.prototype.toISOString` (format YYYY-MM-DDTHH:mm:ss.sssZ, proleptic
Gregorian calendar in UTC) for years 0-9999, which covers every Bear
timestamp. -/

/-- Left-pad a numeral to two digits. -/
def pad2 (n : Nat) : String :=
  if n < 10 then "0" ++ toString n else toString n

/-- Left-pad a numeral to three digits. -/
def pad3 (n : Nat) : String :=
  if n < 10 then "00" ++ toString n
  else if n < 100 then "0" ++ toString n
  else toString n

/-- Left-pad a numeral to four digits. -/
def pad4 (n : Nat) : String :=
  if n < 10 then "000" ++ toString n
  else if n < 100 then "00" ++ toString n
  else if n < 1000 then "0" ++ toString n
  else toString n

/-- Convert a count of days since 1970-01-01 to a Gregorian calendar date
(year, month, day), the standard civil-from-days algorithm. -/
def civilFromDays (z0 : Int) : Int × Nat × Nat :=
  let z := z0 + 719468
  let era := z.ediv 146097
  let doe := (z - era * 146097).toNat
  let yoe := (doe - doe / 1460 + doe / 36524 - doe / 146096) / 365
  let y := (yoe : Int) + era * 400
  let doy := doe - (365 * yoe + yoe / 4 - yoe / 100)
  let mp := (5 * doy + 2) / 153
  let d := doy - (153 * mp + 2) / 5 + 1
  let m := if mp < 10 then mp + 3 else mp - 9
  ((if m ≤ 2 then y + 1 else y), m, d)

/-- `Date.prototype.toISOString` on a Unix-epoch timestamp in milliseconds,
for dates in years 0-9999. -/
def epochMillisToISO (ms : Int) : String :=
  let days := ms.ediv 86400000
  let msod := (ms.emod 86400000).toNat
  let ymd := civilFromDays days
  let hh := msod / 3600000
  let mi := msod % 3600000 / 60000
  let ss := msod % 60000 / 1000
  let mss := msod % 1000
  pad4 ymd.1.toNat ++ "-" ++ pad2 ymd.2.1 ++ "-" ++ pad2 ymd.2.2 ++ "T" ++
    pad2 hh ++ ":" ++ pad2 mi ++ ":" ++ pad2 ss ++ "." ++ pad3 mss ++ "Z"

/-- The conversion expression of the handler:
`new Date((t + 978307200) * 1000).toISOString()`. -/
def appleToISO (t : Int) : String :=
  epochMillisToISO ((t + 978307200) * 1000)

/-- The dynamically-typed `creation_date` field after the handler loop: the
raw SQL value (an integer or NULL) or the converted ISO string. -/
inductive DateVal where
  | null : DateVal
  | native (t : Int) : DateVal
  | iso (s : String) : DateVal
deriving Repr, DecidableEq

/-- The timestamp-conversion step of the handler loop.  The code guards the
conversion with JavaScript truthiness, `if (note.creation_date)`, so NULL
and the native value 0 are left unconverted. -/
def convertCreation : Option Int → DateVal
  | none => DateVal.null
  | some t => if t = 0 then DateVal.native t else DateVal.iso (appleToISO t)

/-! ## Tag annotation loop of `find_note_by_partial_id` -/

/-- A note as returned by the `find_note_by_partial_id` handler after the
annotation loop. -/
structure FoundNote where
  id : String
  title : String
  content : String
  subtitle : String
  creation_date : DateVal
  tags : List String
deriving Repr, DecidableEq

/-- One iteration of the handler loop over a selected note: run the tag
query (an empty tag list if it fails, per the inner try/catch) and convert
the creation timestamp.  `tagLookup` is the database call
`db.allAsync(tag SELECT, [note.id])`, which can reject. -/
def annotateNote (tagLookup : String → Except String (List String))
    (n : SelectedNote) : FoundNote :=
  { id := n.id
    title := n.title
    content := n.content
    subtitle := n.subtitle
    creation_date := convertCreation n.creation_date
    tags := match tagLookup n.id with
      | Except.ok ts => ts
      | Except.error _ => [] }

/-- The tag query against an intact database never rejects. -/
def dbTagLookup (db : BearDb) : String → Except String (List String) :=
  fun noteId => Except.ok (tagQueryRows db noteId)

/-- The note list built by the `find_note_by_partial_id` handler: the SELECT
result with every note annotated with tags and a converted timestamp. -/
def findNoteByPartialId (db : BearDb)
    (tagLookup : String → Except String (List String)) (frag : String) :
    List FoundNote :=
  (partialIdQuery db frag).map (annotateNote tagLookup)

/-! ## Note store operations shared by the tools -/

/-- Modelled from the spec: `retrieveNote`, `searchNotes` and `retrieveForRAG`
live in src/utils.js, which is not in the repository snapshot.  Spec section 4.1,
`findById(id)`: the Note with that exact identifier among non-trashed notes,
or not found. -/
def findById (db : BearDb) (id : String) : Option NoteRow :=
  (db.notes.filter (fun n => n.ztrashed == 0 && n.zuniqueidentifier == id)).head?

/-- Modification time of a note id, used for tie-breaking in vector queries
(spec section 4.3); 0 when the id is unknown. -/
def modOf (db : BearDb) (id : String) : Int :=
  ((findById db id).map NoteRow.zmodificationdate).getD 0

/-! ## Vector index (modelled from the spec) -/

/-- Modelled from the spec: the vector index lives in src/utils.js, which is
not in the repository snapshot.  Spec section 3, VectorIndexEntry: the Note
identifier the entry was built from together with its embedding vector.  The
vector type is kept as a parameter `V`; the specified instantiation is a
fixed-dimension real vector with cosine similarity (section 4.3). -/
structure VecEntry (V : Type) where
  id : String
  vec : V
deriving Repr, DecidableEq

/-- Ranking order of `VectorIndex.query`: higher score first, ties broken
by most recent note modification time (spec section 4.3). -/
def rankRel {V R : Type} [LinearOrder R] (tieMod : String → Int)
    (a b : VecEntry V × R) : Prop :=
  b.2 < a.2 ∨ (a.2 = b.2 ∧ tieMod b.1.id ≤ tieMod a.1.id)

instance {V R : Type} [LinearOrder R] (tieMod : String → Int) :
    DecidableRel (@rankRel V R _ tieMod) :=
  fun a b => inferInstanceAs
    (Decidable (b.2 < a.2 ∨ (a.2 = b.2 ∧ tieMod b.1.id ≤ tieMod a.1.id)))

instance rankRelTotal {V R : Type} [LinearOrder R] (tieMod : String → Int) :
    IsTotal (VecEntry V × R) (rankRel tieMod) :=
  ⟨fun a b => by
    rcases lt_trichotomy a.2 b.2 with h | h | h
    · exact Or.inr (Or.inl h)
    · rcases Int.le_total (tieMod b.1.id) (tieMod a.1.id) with hm | hm
      · exact Or.inl (Or.inr ⟨h, hm⟩)
      · exact Or.inr (Or.inr ⟨h.symm, hm⟩)
    · exact Or.inl (Or.inl h)⟩

instance rankRelTrans {V R : Type} [LinearOrder R] (tieMod : String → Int) :
    IsTrans (VecEntry V × R) (rankRel tieMod) :=
  ⟨by
    intro a b c hab hbc
    rcases hab with h1 | ⟨e1, m1⟩ <;> rcases hbc with h2 | ⟨e2, m2⟩
    · exact Or.inl (h2.trans h1)
    · exact Or.inl (by rw [← e2]; exact h1)
    · exact Or.inl (by rw [e1]; exact h2)
    · exact Or.inr ⟨e1.trans e2, m2.trans m1⟩⟩

/-- Modelled from the spec: `VectorIndex.query` lives in src/utils.js, which
is not in the repository snapshot.  Spec section 4.3, `query(queryVector, k)`:
score every entry against the query vector, rank by similarity descending
with ties broken by most recent modification time, and return the top `k`
identifiers with their scores.  The similarity function is a parameter; the
specified one is cosine similarity (`cosineSim` below). -/
def vquery {V R : Type} [LinearOrder R] (sim : V → V → R) (tieMod : String → Int)
    (entries : List (VecEntry V)) (qv : V) (k : Nat) : List (String × R) :=
  ((List.insertionSort (rankRel tieMod)
      (entries.map (fun e => (e, sim qv e.vec)))).take k).map
    (fun p => (p.1.id, p.2))

/-! ## Keyword search (modelled from the spec) -/

/-- The row filter of keyword search: non-trashed notes whose title or body
contains the query as a substring (spec section 4.1). -/
def keywordMatch (q : String) (n : NoteRow) : Bool :=
  n.ztrashed == 0 && (sqlLike n.ztitle q || sqlLike n.ztext q)

/-- Modelled from the spec: `searchNotes` in keyword mode lives in
src/utils.js, which is not in the repository snapshot.  Spec section 4.1,
`keywordSearch(query, limit)`: non-trashed notes whose title or body contains
`query` as a substring, ordered by modification time descending, capped at
`limit`. -/
def keywordSearch (db : BearDb) (q : String) (limit : Nat) : List NoteRow :=
  (List.insertionSort modDescRel (db.notes.filter (keywordMatch q))).take limit

/-! ## Retrieval orchestrator -/

/-- The process-wide dependencies created by `initialize` (source lines
24-45): the database, the two availability outcomes, and the semantic
machinery from src/utils.js (index entries, embedder, similarity). -/
structure ServerCtx (V R : Type) where
  db : BearDb
  modelInitialized : Bool
  indexLoaded : Bool
  index : List (VecEntry V)
  embed : String → V
  sim : V → V → R

/-- Source line 44: semantic search is available when both the embedding
model initialized and the vector index loaded. -/
def hasSemanticSearch {V R : Type} (ctx : ServerCtx V R) : Bool :=
  ctx.modelInitialized && ctx.indexLoaded

/-- A note as rendered by the `search_notes` handler (title, id, content). -/
structure SearchHit where
  id : String
  title : String
  content : String
deriving Repr, DecidableEq

/-- Projection of a note row to the fields the search handlers render. -/
def toHit (n : NoteRow) : SearchHit :=
  { id := n.zuniqueidentifier, title := n.ztitle, content := n.ztext }

/-- Modelled from the spec: the semantic path of `searchNotes`
(src/utils.js, not in the snapshot).  Spec section 4.4: embed the query and
return the top-limit Notes by `VectorIndex.query`; the notes themselves are
resolved through the store by identifier. -/
def semanticSearch {V R : Type} [LinearOrder R] (ctx : ServerCtx V R)
    (q : String) (limit : Nat) : List SearchHit :=
  (vquery ctx.sim (modOf ctx.db) ctx.index (ctx.embed q) limit).filterMap
    (fun p => (findById ctx.db p.1).map toHit)

/-- Modelled from the spec: `searchNotes(db, query, limit, useSemantic)`
(src/utils.js, not in the snapshot).  Spec section 4.4: semantic path when
the flag is set, otherwise `keywordSearch(query, limit)`. -/
def searchNotes {V R : Type} [LinearOrder R] (ctx : ServerCtx V R)
    (q : String) (limit : Nat) (useSemantic : Bool) : List SearchHit :=
  if useSemantic then semanticSearch ctx q limit
  else (keywordSearch ctx.db q limit).map toHit

/-- The result value a tool handler returns: `{content:[{type:"text",text}]}`
reduced to its text payload. -/
structure CallToolResult where
  text : String
deriving Repr, DecidableEq

/-- Source line 173: the strategy word interpolated into the response. -/
def usedStrategy (useSemantic : Bool) : String :=
  if useSemantic then "semantic" else "keyword"

/-- Source line 173: rendering of one note in the `search_notes` response. -/
def renderHit (h : SearchHit) : String :=
  "**" ++ h.title ++ "**\nID: " ++ h.id ++ "\n" ++ h.content ++ "\n"

/-- Source line 173: the success text of the `search_notes` handler. -/
def renderSearchOk (hits : List SearchHit) (strategyWord : String) : String :=
  "Found " ++ toString hits.length ++ " notes using " ++ strategyWord ++
    " search:\n\n" ++ String.intercalate "\n" (hits.map renderHit)

/-- The `search_notes` handler body (source lines 167-186) as a function of
the outcome of the awaited `searchNotes` call: render the hits on success,
return the structured failure text when the promise rejects. -/
def searchNotesHandler (useSemantic : Bool)
    (outcome : Except String (List SearchHit)) : CallToolResult :=
  match outcome with
  | Except.ok notes => { text := renderSearchOk notes (usedStrategy useSemantic) }
  | Except.error e => { text := "Search failed: " ++ e }

/-- The full `search_notes` tool (source lines 163-187): read the arguments,
compute `useSemanticSearch = semantic && hasSemanticSearch`, run
`searchNotes` and render. -/
def searchNotesTool {V R : Type} [LinearOrder R] (ctx : ServerCtx V R)
    (q : String) (limit : Nat) (semantic : Bool) : CallToolResult :=
  searchNotesHandler (semantic && hasSemanticSearch ctx)
    (Except.ok (searchNotes ctx q limit (semantic && hasSemanticSearch ctx)))

/-! ## RAG retrieval -/

/-- An entry returned by `retrieveForRAG`: a note with its similarity
score. -/
structure RagHit (R : Type) where
  id : String
  title : String
  content : String
  score : R
deriving Repr, DecidableEq

/-- Modelled from the spec: `retrieveForRAG` lives in src/utils.js, which is
not in the repository snapshot.  Spec section 4.4, `retrieveForContext`:
always the semantic path, every returned entry carries its similarity
score. -/
def retrieveForRAG {V R : Type} [LinearOrder R] (ctx : ServerCtx V R)
    (q : String) (limit : Nat) : List (RagHit R) :=
  (vquery ctx.sim (modOf ctx.db) ctx.index (ctx.embed q) limit).filterMap
    (fun p => (findById ctx.db p.1).map (fun n =>
      { id := n.zuniqueidentifier, title := n.ztitle, content := n.ztext,
        score := p.2 }))

/-- A response of the call-tool dispatcher: a tool result, or a thrown
`McpError` (source line 351 throws `MethodNotFound` for any tool name that
no branch handled). -/
inductive ToolResponse (R : Type) where
  | result (hits : List (RagHit R)) (text : String) : ToolResponse R
  | mcpError (msg : String) : ToolResponse R
deriving DecidableEq

/-- Source lines 244: rendering of one retrieved note with its score. -/
def renderRagHit {R : Type} [ToString R] (h : RagHit R) : String :=
  "**" ++ h.title ++ "**\nID: " ++ h.id ++ "\n" ++ h.content ++ "\n*Score: " ++
    toString h.score ++ "*\n"

/-- Source line 244: the success text of the `retrieve_for_rag` handler. -/
def renderRagOk {R : Type} [ToString R] (q : String) (context : List (RagHit R)) :
    String :=
  "Retrieved " ++ toString context.length ++ " relevant notes for: \"" ++
    q ++ "\"\n\n" ++ String.intercalate "\n" (context.map renderRagHit)

/-- Source lines 236-258 and 351: the `retrieve_for_rag` dispatch.  The
branch is guarded by `hasSemanticSearch`; when semantic search is
unavailable the dispatcher falls through to the thrown `McpError`. -/
def retrieveForRagTool {V R : Type} [LinearOrder R] [ToString R]
    (ctx : ServerCtx V R) (q : String) (limit : Nat) : ToolResponse R :=
  if hasSemanticSearch ctx then
    ToolResponse.result (retrieveForRAG ctx q limit)
      (renderRagOk q (retrieveForRAG ctx q limit))
  else ToolResponse.mcpError "Tool not found"

/-- Source lines 136-158: the tool list; `retrieve_for_rag` is registered
only when semantic search is available. -/
def listTools {V R : Type} (ctx : ServerCtx V R) : List String :=
  ["search_notes", "get_note", "get_tags", "reindex_notes",
    "find_note_by_partial_id"] ++
    (if hasSemanticSearch ctx then ["retrieve_for_rag"] else [])

/-! ## get_note and get_tags -/

/-- A note as returned by `retrieveNote`. -/
structure RetrievedNote where
  id : String
  title : String
  content : String
  tags : List String
  creation_date : DateVal
deriving Repr, DecidableEq

/-- Modelled from the spec: `retrieveNote` lives in src/utils.js, which is
not in the repository snapshot.  Spec sections 4.1 and 6: resolve the exact
identifier among non-trashed notes, with tags and converted timestamp, or a
not-found failure. -/
def retrieveNote (db : BearDb) (id : String) : Except String RetrievedNote :=
  match findById db id with
  | none => Except.error ("Note with ID " ++ id ++ " not found")
  | some n => Except.ok
      { id := n.zuniqueidentifier, title := n.ztitle, content := n.ztext,
        tags := tagQueryRows db n.zuniqueidentifier,
        creation_date := convertCreation n.zcreationdate }

/-- The `get_note` handler body (source lines 189-211) as a function of the
outcome of the awaited `retrieveNote` call. -/
def getNoteHandler (outcome : Except String RetrievedNote) : CallToolResult :=
  match outcome with
  | Except.ok n => { text := "**" ++ n.title ++ "**\n\n" ++ n.content ++
      "\n\n*Tags: " ++ String.intercalate ", " n.tags ++ "*" }
  | Except.error e => { text := "Error retrieving note: " ++ e }

/-- Modelled from the spec: `getAllTags` lives in src/utils.js, which is not
in the repository snapshot.  Spec sections 3 and 8: the distinct tag names
associated with non-trashed notes through the join relation (after trashing
a note, its tags no longer contribute). -/
def getAllTags (db : BearDb) : List String :=
  (db.joins.flatMap (fun j =>
    (db.tags.filter (fun zt => zt.z_pk == j.z_13tags)).flatMap (fun zt =>
      ((db.notes.filter (fun zn =>
          zn.z_pk == j.z_5notes && zn.ztrashed == 0)).map
        (fun _ => zt.ztitle))))).dedup

/-! ## Reindexing and the availability state machine -/

/-- Source lines 24-45, the `initialize` function: semantic availability is
the conjunction of the embedding-model outcome and the index-load
outcome. -/
def initializeServer (modelInitialized indexLoaded : Bool) : Bool :=
  modelInitialized && indexLoaded

/-- The semantic-availability states of spec section 4.4. -/
inductive SemState where
  | unavailable : SemState
  | initializing : SemState
  | available : SemState
deriving Repr, DecidableEq

/-- The outcome of the startup transition out of `initializing`. -/
def initTransition (modelInitialized indexLoaded : Bool) : SemState :=
  if initializeServer modelInitialized indexLoaded then SemState.available
  else SemState.unavailable

/-- The per-process mutable state relevant to reindexing: the availability
flag (a `const` in `main`, source line 50), the active index, and the
persisted copy. -/
structure ProcState (V : Type) where
  hasSemanticSearch : Bool
  index : List (VecEntry V)
  persisted : Option (List (VecEntry V))

/-- Modelled from the spec: `createVectorIndex` builds index entries in
src/utils.js, which is not in the repository snapshot.  Spec section 4.3,
`rebuild`: iterate every non-trashed note, embed the concatenation of title
and body, skip a note whose embedding fails. -/
def rebuildEntries {V : Type} (db : BearDb) (embed : String → Option V) :
    List (VecEntry V) :=
  (db.notes.filter (fun n => n.ztrashed == 0)).filterMap (fun n =>
    (embed (n.ztitle ++ "\n" ++ n.ztext)).map
      (fun v => VecEntry.mk n.zuniqueidentifier v))

/-- Modelled from the spec: `createVectorIndex` in src/utils.js, not in the
repository snapshot.  Spec section 4.3: a rebuild under an unavailable
Embedding Provider aborts entirely; otherwise it produces the new entry
list. -/
def createVectorIndex {V : Type} (db : BearDb) (providerAvailable : Bool)
    (embed : String → Option V) : Except String (List (VecEntry V)) :=
  if providerAvailable then Except.ok (rebuildEntries db embed)
  else Except.error "Embedding model not available"

/-- The `reindex_notes` handler (source lines 260-281) together with the
atomic swap of spec section 4.3, as a function of the rebuild outcome: on
success the new index replaces the active and persisted ones as one unit;
on failure the state is untouched and the failure text is returned.  The
handler never assigns `hasSemanticSearch` (it is a `const`). -/
def reindexStep {V : Type} (st : ProcState V)
    (outcome : Except String (List (VecEntry V))) :
    ProcState V × CallToolResult :=
  match outcome with
  | Except.ok entries =>
      ({ st with index := entries, persisted := some entries },
       { text := "Successfully re-indexed " ++ toString entries.length ++
          " notes. Vector search index has been updated." })
  | Except.error e => (st, { text := "Re-indexing failed: " ++ e })

/-- Modelled from the spec: `loadVectorIndex` in src/utils.js, not in the
repository snapshot.  Spec section 4.3, `load()`: succeeds exactly when a
usable persisted index exists. -/
def loadVectorIndex {V : Type} (persisted : Option (List (VecEntry V))) : Bool :=
  persisted.isSome

/-! ## Handlers with their catch branches (error taxonomy) -/

/-- Rendering of one note in the `find_note_by_partial_id` response (source
line 335): body truncated to 200 characters. -/
def renderFoundNote (n : FoundNote) : String :=
  "**" ++ n.title ++ "**\nFull ID: " ++ n.id ++ "\n" ++
    (n.content.take 200) ++ "...\n*Tags: " ++
    String.intercalate ", " n.tags ++ "*\n"

/-- The `find_note_by_partial_id` handler body (source lines 283-348) as a
function of the outcome of the awaited SELECT: the catch branch on a
rejected query, the no-match message on an empty result, and the annotation
loop otherwise. -/
def findNoteByPartialIdHandler (tagLookup : String → Except String (List String))
    (frag : String) (outcome : Except String (List SelectedNote)) :
    CallToolResult :=
  match outcome with
  | Except.error e => { text := "Search failed: " ++ e }
  | Except.ok ns =>
      if ns.isEmpty then
        { text := "No notes found matching partial ID or title: \"" ++ frag ++ "\"" }
      else
        let annotated := ns.map (annotateNote tagLookup)
        { text := "Found " ++ toString annotated.length ++ " notes matching \"" ++
            frag ++ "\":\n\n" ++
            String.intercalate "\n" (annotated.map renderFoundNote) }

/-! ## Cosine similarity (modelled from the spec) -/

/-- Modelled from the spec: cosine similarity is computed in src/utils.js,
which is not in the repository snapshot.  Spec section 3: an embedding is a
fixed-length ordered sequence of floating-point values, modelled as a real
vector of dimension `d`.  This is the dot product of two such vectors. -/
def dotProd {d : Nat} (a b : Fin d → ℝ) : ℝ := ∑ i, a i * b i

/-- The magnitude (Euclidean norm) of a vector. -/
noncomputable def magnitude {d : Nat} (a : Fin d → ℝ) : ℝ :=
  Real.sqrt (dotProd a a)

open Classical in
/-- Modelled from the spec: cosine similarity (src/utils.js, not in the
snapshot).  Spec section 4.3: the dot product of the two vectors divided by
the product of their magnitudes, defined as 0 similarity when either vector
has zero magnitude. -/
noncomputable def cosineSim {d : Nat} (a b : Fin d → ℝ) : ℝ :=
  if magnitude a = 0 ∨ magnitude b = 0 then 0
  else dotProd a b / (magnitude a * magnitude b)

/-! ## Sample database used to instantiate the theorems -/

/-- A non-trashed note with tag "work" (spec section 8 scenario). -/
def noteA : NoteRow :=
  { z_pk := 1, zuniqueidentifier := "ABC-123", ztitle := "Project Plan",
    ztext := "Plan body", zsubtitle := "", zcreationdate := some 31536000,
    zmodificationdate := 100, ztrashed := 0 }

/-- A non-trashed note with native creation timestamp 0. -/
def noteB : NoteRow :=
  { z_pk := 2, zuniqueidentifier := "DEF-456", ztitle := "Grocery List",
    ztext := "milk", zsubtitle := "", zcreationdate := some 0,
    zmodificationdate := 50, ztrashed := 0 }

/-- A trashed note that matches most queries textually. -/
def noteT : NoteRow :=
  { z_pk := 3, zuniqueidentifier := "TRA-789", ztitle := "Project Trash",
    ztext := "Plan body", zsubtitle := "", zcreationdate := some 1,
    zmodificationdate := 200, ztrashed := 1 }

/-- The tag "work". -/
def tagWork : TagRow := { z_pk := 11, ztitle := "work" }

/-- The join row associating `noteA` with `tagWork`. -/
def joinAW : JoinRow := { z_5notes := 1, z_13tags := 11 }

/-- A small Bear database with two live notes and one trashed note. -/
def sampleDb : BearDb :=
  { notes := [noteA, noteB, noteT], tags := [tagWork], joins := [joinAW] }

/-- A server context over `sampleDb` with both semantic dependencies up,
with trivial embeddings (vector type `Unit`, integer scores). -/
def sampleCtx : ServerCtx Unit Int :=
  { db := sampleDb, modelInitialized := true, indexLoaded := true,
    index := [{ id := "ABC-123", vec := () }], embed := fun _ => (),
    sim := fun _ _ => 0 }

/-- The same context after a failed embedding-model initialization. -/
def sampleCtxOff : ServerCtx Unit Int :=
  { sampleCtx with modelInitialized := false }

/-- The all-ones vector in dimension one. -/
def vOne : Fin 1 → ℝ := fun _ => 1

/-! ## Helper lemmas -/

theorem dotProd_self_nonneg {d : Nat} (a : Fin d → ℝ) : 0 ≤ dotProd a a :=
  Finset.sum_nonneg fun i _ => mul_self_nonneg (a i)

theorem magnitude_eq_zero_iff {d : Nat} (a : Fin d → ℝ) :
    magnitude a = 0 ↔ dotProd a a = 0 := by
  unfold magnitude
  rw [Real.sqrt_eq_zero (dotProd_self_nonneg a)]

theorem dotProd_sq_le {d : Nat} (a b : Fin d → ℝ) :
    dotProd a b ^ 2 ≤ dotProd a a * dotProd b b := by
  have h := Finset.sum_mul_sq_le_sq_mul_sq Finset.univ a b
  simp only [dotProd, ← pow_two]
  exact h

theorem abs_dotProd_le {d : Nat} (a b : Fin d → ℝ) :
    |dotProd a b| ≤ magnitude a * magnitude b := by
  rw [← Real.sqrt_sq_eq_abs]
  unfold magnitude
  rw [← Real.sqrt_mul (dotProd_self_nonneg a)]
  exact Real.sqrt_le_sqrt (dotProd_sq_le a b)

theorem cosineSim_bounds {d : Nat} (a b : Fin d → ℝ) :
    -1 ≤ cosineSim a b ∧ cosineSim a b ≤ 1 := by
  unfold cosineSim
  split
  · constructor <;> norm_num
  · rename_i h
    push_neg at h
    obtain ⟨ha, hb⟩ := h
    have hma : 0 < magnitude a :=
      lt_of_le_of_ne (Real.sqrt_nonneg _) (Ne.symm ha)
    have hmb : 0 < magnitude b :=
      lt_of_le_of_ne (Real.sqrt_nonneg _) (Ne.symm hb)
    have habs : |dotProd a b / (magnitude a * magnitude b)| ≤ 1 := by
      rw [abs_div, abs_of_pos (mul_pos hma hmb), div_le_one (mul_pos hma hmb)]
      exact abs_dotProd_le a b
    exact abs_le.mp habs

/-- Membership in a vector-query result comes from scoring an index entry
against the query vector. -/
theorem mem_vquery {V R : Type} [LinearOrder R] {sim : V → V → R}
    {tieMod : String → Int} {entries : List (VecEntry V)} {qv : V} {k : Nat}
    {p : String × R} (hp : p ∈ vquery sim tieMod entries qv k) :
    ∃ e ∈ entries, p = (e.id, sim qv e.vec) := by
  unfold vquery at hp
  obtain ⟨x, hx, hxp⟩ := List.mem_map.mp hp
  have hx1 : x ∈ List.insertionSort (rankRel tieMod)
      (entries.map fun e => (e, sim qv e.vec)) :=
    (List.take_sublist _ _).subset hx
  have hx2 : x ∈ entries.map fun e => (e, sim qv e.vec) :=
    ((List.perm_insertionSort (rankRel tieMod) _).mem_iff).mp hx1
  obtain ⟨e, he, hex⟩ := List.mem_map.mp hx2
  refine ⟨e, he, ?_⟩
  rw [← hxp, ← hex]

/-- The length of a vector-query result is capped at `k`. -/
theorem vquery_length_le {V R : Type} [LinearOrder R] (sim : V → V → R)
    (tieMod : String → Int) (entries : List (VecEntry V)) (qv : V) (k : Nat) :
    (vquery sim tieMod entries qv k).length ≤ k := by
  unfold vquery
  rw [List.length_map]
  exact List.length_take_le _ _

/-- Membership in a filtered, sorted, truncated note list implies membership
in the underlying table together with the filter condition. -/
theorem mem_take_sort_filter {k : Nat} {p : NoteRow → Bool} {l : List NoteRow}
    {n : NoteRow}
    (h : n ∈ (List.insertionSort modDescRel (l.filter p)).take k) :
    n ∈ l ∧ p n = true := by
  have h1 : n ∈ List.insertionSort modDescRel (l.filter p) :=
    (List.take_sublist _ _).subset h
  have h2 : n ∈ l.filter p :=
    ((List.perm_insertionSort modDescRel _).mem_iff).mp h1
  exact List.mem_filter.mp h2

/-- A successful `findById` yields a non-trashed note of the table with the
requested identifier. -/
theorem findById_ok {db : BearDb} {id : String} {n : NoteRow}
    (h : findById db id = some n) :
    n ∈ db.notes ∧ n.ztrashed = 0 ∧ n.zuniqueidentifier = id := by
  unfold findById at h
  have hm : n ∈ db.notes.filter
      (fun m => m.ztrashed == 0 && m.zuniqueidentifier == id) :=
    List.mem_of_mem_head? (by rw [h]; exact rfl)
  have := List.mem_filter.mp hm
  refine ⟨this.1, ?_, ?_⟩
  · have hb := this.2
    simp only [Bool.and_eq_true, beq_iff_eq] at hb
    exact hb.1
  · have hb := this.2
    simp only [Bool.and_eq_true, beq_iff_eq] at hb
    exact hb.2

/-! ## Claim theorems -/

/-- C1: for every call to search with a query, a limit and a semantic flag,
if the flag is set and both the embedding model and the vector index are
available the response renders the top-limit notes of the semantic path
(embedding the query and ranking via the vector query) and reports the
semantic strategy; otherwise it renders `keywordSearch(query, limit)` and
reports the keyword strategy; both paths return at most `limit` notes. -/
theorem search_strategy_dispatch {V R : Type} [LinearOrder R]
    (ctx : ServerCtx V R) (q : String) (limit : Nat) (semantic : Bool) :
    ((semantic && hasSemanticSearch ctx) = true →
      searchNotesTool ctx q limit semantic =
        { text := renderSearchOk (semanticSearch ctx q limit) (usedStrategy true) }) ∧
    ((semantic && hasSemanticSearch ctx) = false →
      searchNotesTool ctx q limit semantic =
        { text := renderSearchOk ((keywordSearch ctx.db q limit).map toHit)
            (usedStrategy false) }) ∧
    usedStrategy true = "semantic" ∧
    usedStrategy false = "keyword" ∧
    (semanticSearch ctx q limit).length ≤ limit ∧
    ((keywordSearch ctx.db q limit).map toHit).length ≤ limit := by
  refine ⟨?_, ?_, rfl, rfl, ?_, ?_⟩
  · intro h
    simp [searchNotesTool, searchNotesHandler, searchNotes, h]
  · intro h
    simp [searchNotesTool, searchNotesHandler, searchNotes, h]
  · calc (semanticSearch ctx q limit).length
        ≤ (vquery ctx.sim (modOf ctx.db) ctx.index (ctx.embed q) limit).length :=
          List.length_filterMap_le _ _
      _ ≤ limit := vquery_length_le _ _ _ _ _
  · rw [List.length_map]
    unfold keywordSearch
    exact List.length_take_le _ _

/-- C1 witness: in a context with both semantic dependencies up, the
semantic branch is taken; with the embedding model down, the keyword branch
is taken. -/
theorem search_strategy_dispatch_witness :
    ((true && hasSemanticSearch sampleCtx) = true ∧
      searchNotesTool sampleCtx "q" 10 true =
        { text := renderSearchOk (semanticSearch sampleCtx "q" 10) (usedStrategy true) }) ∧
    ((true && hasSemanticSearch sampleCtxOff) = false ∧
      searchNotesTool sampleCtxOff "q" 10 true =
        { text := renderSearchOk ((keywordSearch sampleCtxOff.db "q" 10).map toHit)
            (usedStrategy false) }) := by
  have h1 := search_strategy_dispatch sampleCtx "q" 10 true
  have h2 := search_strategy_dispatch sampleCtxOff "q" 10 true
  have e1 : (true && hasSemanticSearch sampleCtx) = true := by decide
  have e2 : (true && hasSemanticSearch sampleCtxOff) = false := by decide
  exact ⟨⟨e1, h1.1 e1⟩, ⟨e2, h2.2.1 e2⟩⟩

/-- C2: `find_note_by_partial_id` returns exactly the non-trashed notes
whose identifier or title contains the fragment as a case-insensitive
substring, ordered by modification time descending, capped at 10, each
annotated with its resolved tag list. -/
theorem find_by_partial_spec (db : BearDb) (frag : String)
    (tagLookup : String → Except String (List String)) :
    (∀ n ∈ partialIdRows db frag, n ∈ db.notes ∧ n.ztrashed = 0 ∧
      (sqlLike n.zuniqueidentifier frag = true ∨ sqlLike n.ztitle frag = true)) ∧
    ((db.notes.filter (partialIdMatch frag)).length ≤ 10 →
      ∀ n ∈ db.notes, partialIdMatch frag n = true → n ∈ partialIdRows db frag) ∧
    ((partialIdRows db frag).length ≤ 10) ∧
    ((partialIdRows db frag).Pairwise modDescRel) ∧
    (findNoteByPartialId db tagLookup frag =
      (partialIdRows db frag).map (fun n => annotateNote tagLookup (toSelected n))) ∧
    (∀ n : NoteRow, (annotateNote (dbTagLookup db) (toSelected n)).tags =
      tagQueryRows db n.zuniqueidentifier) := by
  refine ⟨?_, ?_, ?_, ?_, ?_, fun n => rfl⟩
  · intro n hn
    have h := mem_take_sort_filter hn
    refine ⟨h.1, ?_⟩
    have h2 := h.2
    simpa [partialIdMatch] using h2
  · intro hlen n hn hm
    unfold partialIdRows
    rw [List.take_of_length_le]
    · exact ((List.perm_insertionSort modDescRel _).mem_iff).mpr
        (List.mem_filter.mpr ⟨hn, hm⟩)
    · rw [List.length_insertionSort]
      exact hlen
  · exact List.length_take_le _ _
  · exact List.Pairwise.sublist (List.take_sublist _ _)
      (List.sorted_insertionSort modDescRel _)
  · simp [findNoteByPartialId, partialIdQuery, List.map_map, Function.comp]

/-- C2 witness: in the sample database the fragment "proj" matches exactly
the live note `noteA` and the result is annotated with its tags. -/
theorem find_by_partial_spec_witness :
    ((sampleDb.notes.filter (partialIdMatch "proj")).length ≤ 10 ∧
      noteA ∈ sampleDb.notes ∧ partialIdMatch "proj" noteA = true ∧
      noteA ∈ partialIdRows sampleDb "proj") ∧
    (noteA ∈ sampleDb.notes ∧ noteA.ztrashed = 0 ∧
      (sqlLike noteA.zuniqueidentifier "proj" = true ∨
        sqlLike noteA.ztitle "proj" = true)) := by
  have h := find_by_partial_spec sampleDb "proj" (dbTagLookup sampleDb)
  have h1 : (sampleDb.notes.filter (partialIdMatch "proj")).length ≤ 10 := by decide
  have h2 : noteA ∈ sampleDb.notes := by decide
  have h3 : partialIdMatch "proj" noteA = true := by decide
  have hmem := h.2.1 h1 noteA h2 h3
  exact ⟨⟨h1, h2, h3, hmem⟩, h.1 noteA hmem⟩

/-- C3: trashed notes never appear in keyword search, partial-id search,
semantic search, tag listings, or index rebuilds: every returned element
traces back to a table row with the trash flag clear. -/
theorem trashed_never_returned {V R V2 : Type} [LinearOrder R]
    (ctx : ServerCtx V R) (db : BearDb) (q frag tag : String) (limit : Nat)
    (embed : String → Option V2) :
    (∀ n ∈ keywordSearch db q limit, n ∈ db.notes ∧ n.ztrashed = 0) ∧
    (∀ n ∈ partialIdRows db frag, n ∈ db.notes ∧ n.ztrashed = 0) ∧
    (tag ∈ getAllTags db → ∃ zn ∈ db.notes, zn.ztrashed = 0 ∧
      ∃ j ∈ db.joins, ∃ zt ∈ db.tags,
        zn.z_pk = j.z_5notes ∧ zt.z_pk = j.z_13tags ∧ zt.ztitle = tag) ∧
    (∀ en ∈ rebuildEntries db embed,
      ∃ n ∈ db.notes, n.ztrashed = 0 ∧ en.id = n.zuniqueidentifier) ∧
    (∀ h ∈ semanticSearch ctx q limit,
      ∃ n ∈ ctx.db.notes, n.ztrashed = 0 ∧ h = toHit n) := by
  refine ⟨?_, ?_, ?_, ?_, ?_⟩
  · intro n hn
    unfold keywordSearch at hn
    have h := mem_take_sort_filter hn
    refine ⟨h.1, ?_⟩
    have h2 := h.2
    simp only [keywordMatch, Bool.and_eq_true, beq_iff_eq] at h2
    exact h2.1
  · intro n hn
    unfold partialIdRows at hn
    have h := mem_take_sort_filter hn
    refine ⟨h.1, ?_⟩
    have h2 := h.2
    simp only [partialIdMatch, Bool.and_eq_true, beq_iff_eq] at h2
    exact h2.1
  · intro ht
    unfold getAllTags at ht
    have ht2 := List.mem_dedup.mp ht
    obtain ⟨j, hj, hin⟩ := List.mem_flatMap.mp ht2
    obtain ⟨zt, hzt, hin2⟩ := List.mem_flatMap.mp hin
    obtain ⟨zn, hzn, heq⟩ := List.mem_map.mp hin2
    have hztf := List.mem_filter.mp hzt
    have hznf := List.mem_filter.mp hzn
    have hztp := hztf.2
    have hznp := hznf.2
    simp only [beq_iff_eq] at hztp
    simp only [Bool.and_eq_true, beq_iff_eq] at hznp
    exact ⟨zn, hznf.1, hznp.2, j, hj, zt, hztf.1, hznp.1, hztp, heq⟩
  · intro en hen
    unfold rebuildEntries at hen
    obtain ⟨n, hn, hfn⟩ := List.mem_filterMap.mp hen
    have hf := List.mem_filter.mp hn
    have hft := hf.2
    simp only [beq_iff_eq] at hft
    obtain ⟨v, _, hv⟩ := Option.map_eq_some'.mp hfn
    refine ⟨n, hf.1, hft, ?_⟩
    rw [← hv]
  · intro h hh
    unfold semanticSearch at hh
    obtain ⟨p, _, hfp⟩ := List.mem_filterMap.mp hh
    obtain ⟨n, hfind, htoHit⟩ := Option.map_eq_some'.mp hfp
    have hok := findById_ok hfind
    exact ⟨n, hok.1, hok.2.1, htoHit.symm⟩

/-- C3 witness: in the sample database every operation returns only
non-trashed rows; the trashed note `noteT` matches the queries textually
yet never appears. -/
theorem trashed_never_returned_witness :
    (noteA ∈ keywordSearch sampleDb "plan" 10 ∧
      noteA ∈ sampleDb.notes ∧ noteA.ztrashed = 0) ∧
    ("work" ∈ getAllTags sampleDb ∧ ∃ zn ∈ sampleDb.notes, zn.ztrashed = 0 ∧
      ∃ j ∈ sampleDb.joins, ∃ zt ∈ sampleDb.tags,
        zn.z_pk = j.z_5notes ∧ zt.z_pk = j.z_13tags ∧ zt.ztitle = "work") ∧
    (VecEntry.mk "ABC-123" () ∈ rebuildEntries sampleDb (fun _ => some ()) ∧
      ∃ n ∈ sampleDb.notes, n.ztrashed = 0 ∧
        (VecEntry.mk "ABC-123" ()).id = n.zuniqueidentifier) ∧
    (toHit noteA ∈ semanticSearch sampleCtx "x" 1 ∧
      ∃ n ∈ sampleCtx.db.notes, n.ztrashed = 0 ∧ toHit noteA = toHit n) ∧
    keywordSearch sampleDb "plan" 10 = [noteA] ∧
    partialIdRows sampleDb "proj" = [noteA] := by
  have h := trashed_never_returned sampleCtx sampleDb "plan" "proj" "work" 10
    (fun _ => some ())
  have m1 : noteA ∈ keywordSearch sampleDb "plan" 10 := by decide
  have m2 : "work" ∈ getAllTags sampleDb := by decide
  have m3 : VecEntry.mk "ABC-123" () ∈ rebuildEntries sampleDb (fun _ => some ()) := by
    decide
  have m4 : toHit noteA ∈ semanticSearch sampleCtx "x" 1 := by decide
  exact ⟨⟨m1, h.1 noteA m1⟩, ⟨m2, h.2.2.1 m2⟩, ⟨m3, h.2.2.2.1 _ m3⟩,
    ⟨m4, h.2.2.2.2 _ m4⟩, by decide, by decide⟩

/-- C4: `retrieve_for_rag` always uses the semantic path: when semantic
search is unavailable the tool is not registered and the call falls through
to a MethodNotFound error instead of substituting keyword results; on
success every returned entry carries the similarity score produced by the
vector query for its identifier. -/
theorem retrieve_for_rag_spec {V R : Type} [LinearOrder R] [ToString R]
    (ctx : ServerCtx V R) (q : String) (limit : Nat) :
    (hasSemanticSearch ctx = false →
      retrieveForRagTool ctx q limit = ToolResponse.mcpError "Tool not found" ∧
      "retrieve_for_rag" ∉ listTools ctx) ∧
    (hasSemanticSearch ctx = true →
      ("retrieve_for_rag" ∈ listTools ctx ∧
        retrieveForRagTool ctx q limit =
          ToolResponse.result (retrieveForRAG ctx q limit)
            (renderRagOk q (retrieveForRAG ctx q limit)))) ∧
    (∀ h ∈ retrieveForRAG ctx q limit,
      ∃ p ∈ vquery ctx.sim (modOf ctx.db) ctx.index (ctx.embed q) limit,
        h.id = p.1 ∧ h.score = p.2) := by
  refine ⟨?_, ?_, ?_⟩
  · intro h
    constructor
    · simp [retrieveForRagTool, h]
    · simp [listTools, h]
  · intro h
    constructor
    · simp [listTools, h]
    · simp [retrieveForRagTool, h]
  · intro h hmem
    unfold retrieveForRAG at hmem
    obtain ⟨p, hp, hfp⟩ := List.mem_filterMap.mp hmem
    obtain ⟨n, hfind, heq⟩ := Option.map_eq_some'.mp hfp
    have hok := findById_ok hfind
    refine ⟨p, hp, ?_, ?_⟩
    · rw [← heq]
      exact hok.2.2
    · rw [← heq]

/-- C4 witness: with the embedding model down the tool is absent and the
call errors; with it up the call returns the scored entries. -/
theorem retrieve_for_rag_spec_witness :
    (hasSemanticSearch sampleCtxOff = false ∧
      retrieveForRagTool sampleCtxOff "q" 5 = ToolResponse.mcpError "Tool not found" ∧
      "retrieve_for_rag" ∉ listTools sampleCtxOff) ∧
    (hasSemanticSearch sampleCtx = true ∧
      "retrieve_for_rag" ∈ listTools sampleCtx ∧
      retrieveForRagTool sampleCtx "q" 5 =
        ToolResponse.result (retrieveForRAG sampleCtx "q" 5)
          (renderRagOk "q" (retrieveForRAG sampleCtx "q" 5))) := by
  have h1 := retrieve_for_rag_spec sampleCtxOff "q" 5
  have h2 := retrieve_for_rag_spec sampleCtx "q" 5
  have e1 : hasSemanticSearch sampleCtxOff = false := by decide
  have e2 : hasSemanticSearch sampleCtx = true := by decide
  exact ⟨⟨e1, h1.1 e1⟩, ⟨e2, h2.2.1 e2⟩⟩

/-- C5: the conversion expression of the handler is exact on nonzero native
timestamps (31536000 maps to the instant 2002-01-01T00:00:00Z, rendered
with milliseconds by `toISOString`), and it WOULD map native 0 exactly to
2001-01-01T00:00:00Z; but the truthiness guard `if (note.creation_date)`
skips the conversion when the native value is 0, so a note row with native
creation timestamp 0 (such as `noteB`) reaches the caller unconverted,
contradicting the claim that the conversion is exact on every read-facing
call. -/
theorem timestamp_conversion_zero_skipped :
    appleToISO 0 = "2001-01-01T00:00:00.000Z" ∧
    appleToISO 31536000 = "2002-01-01T00:00:00.000Z" ∧
    convertCreation (some 31536000) = DateVal.iso "2002-01-01T00:00:00.000Z" ∧
    convertCreation (some 0) = DateVal.native 0 ∧
    (annotateNote (dbTagLookup sampleDb) (toSelected noteB)).creation_date =
      DateVal.native 0 ∧
    (annotateNote (dbTagLookup sampleDb) (toSelected noteB)).creation_date ≠
      DateVal.iso "2001-01-01T00:00:00.000Z" := by
  refine ⟨by decide, by decide, by decide, by decide, by decide, by decide⟩

/-- C6: cosine similarity equals the dot product divided by the product of
the magnitudes, is 0 when either vector has zero magnitude, always lies in
[-1, 1], equals 1 on a vector with itself (nonzero magnitude), and every
score returned by the vector query is the cosine similarity of the query
vector with the entry vector, hence also in [-1, 1]. -/
theorem cosine_similarity_spec {d : Nat} (a b qv : Fin d → ℝ)
    (entries : List (VecEntry (Fin d → ℝ))) (tieMod : String → Int) (k : Nat) :
    (magnitude a ≠ 0 → magnitude b ≠ 0 →
      cosineSim a b = dotProd a b / (magnitude a * magnitude b)) ∧
    (magnitude a = 0 ∨ magnitude b = 0 → cosineSim a b = 0) ∧
    (-1 ≤ cosineSim a b ∧ cosineSim a b ≤ 1) ∧
    (magnitude a ≠ 0 → cosineSim a a = 1) ∧
    (∀ p ∈ vquery cosineSim tieMod entries qv k,
      (∃ e ∈ entries, p = (e.id, cosineSim qv e.vec)) ∧
        -1 ≤ p.2 ∧ p.2 ≤ 1) := by
  refine ⟨?_, ?_, cosineSim_bounds a b, ?_, ?_⟩
  · intro ha hb
    unfold cosineSim
    rw [if_neg]
    push_neg
    exact ⟨ha, hb⟩
  · intro h
    unfold cosineSim
    rw [if_pos h]
  · intro ha
    have hd : dotProd a a ≠ 0 := fun hz => ha ((magnitude_eq_zero_iff a).mpr hz)
    unfold cosineSim
    rw [if_neg (by push_neg; exact ⟨ha, ha⟩)]
    unfold magnitude
    rw [Real.mul_self_sqrt (dotProd_self_nonneg a)]
    exact div_self hd
  · intro p hp
    obtain ⟨e, he, hpe⟩ := mem_vquery hp
    subst hpe
    exact ⟨⟨e, he, rfl⟩, (cosineSim_bounds qv e.vec).1, (cosineSim_bounds qv e.vec).2⟩

/-- C6 witness: the all-ones vector has nonzero magnitude and similarity 1
with itself, and a singleton index query returns that score. -/
theorem cosine_similarity_spec_witness :
    (magnitude vOne ≠ 0 ∧ cosineSim vOne vOne = 1) ∧
    (("A", cosineSim vOne vOne) ∈
        vquery cosineSim (fun _ => 0) [{ id := "A", vec := vOne }] vOne 1 ∧
      -1 ≤ cosineSim vOne vOne ∧ cosineSim vOne vOne ≤ 1) := by
  have h := cosine_similarity_spec vOne vOne vOne [{ id := "A", vec := vOne }]
    (fun _ => 0) 1
  have hmag : magnitude vOne ≠ 0 := by
    simp [magnitude, dotProd, vOne]
  have hmem : ("A", cosineSim vOne vOne) ∈
      vquery cosineSim (fun _ => 0) [{ id := "A", vec := vOne }] vOne 1 := by
    simp [vquery]
  exact ⟨⟨hmag, h.2.2.2.1 hmag⟩, hmem, (h.2.2.2.2 _ hmem).2⟩

/-- C7: a failing tag lookup during `find_note_by_partial_id` yields an
empty tag list for that note only: the annotation loop preserves the number
of notes, fills the failing note's tags with the empty list while leaving
its other fields as usual, produces identical output for notes whose
lookups agree, and annotates each position independently. -/
theorem tag_failure_isolated (ns : List SelectedNote) (e : String)
    (f g : String → Except String (List String)) :
    ((ns.map (annotateNote f)).length = ns.length) ∧
    (∀ n : SelectedNote, f n.id = Except.error e → (annotateNote f n).tags = []) ∧
    (∀ n : SelectedNote, (annotateNote f n).id = n.id ∧
      (annotateNote f n).title = n.title ∧
      (annotateNote f n).content = n.content ∧
      (annotateNote f n).creation_date = convertCreation n.creation_date) ∧
    (∀ n : SelectedNote, f n.id = g n.id → annotateNote f n = annotateNote g n) ∧
    (∀ i, ∀ hi : i < ns.length,
      (ns.map (annotateNote f)).get ⟨i, by simpa using hi⟩ =
        annotateNote f (ns.get ⟨i, hi⟩)) := by
  refine ⟨List.length_map _ _, ?_, ?_, ?_, ?_⟩
  · intro n h
    simp [annotateNote, h]
  · intro n
    exact ⟨rfl, rfl, rfl, rfl⟩
  · intro n h
    simp [annotateNote, h]
  · intro i hi
    simp

/-- C7 witness: a lookup that always fails yields an annotated note with an
empty tag list, while the note count is preserved. -/
theorem tag_failure_isolated_witness :
    (([toSelected noteA].map (annotateNote (fun _ => Except.error "boom"))).length =
      [toSelected noteA].length) ∧
    (annotateNote (fun _ => Except.error "boom") (toSelected noteA)).tags = [] := by
  have h := tag_failure_isolated [toSelected noteA] "boom"
    (fun _ => Except.error "boom") (dbTagLookup sampleDb)
  exact ⟨h.1, h.2.1 (toSelected noteA) rfl⟩

/-- C8: semantic availability follows Unavailable, Initializing, then
Available exactly when both the embedding model and the index load succeed;
a failed reindex leaves the whole state (flag and index) intact; a
successful rebuild replaces the index atomically, never changes the
in-process flag, and persists an index that makes the next startup's load
succeed, so the system can become Available. -/
theorem semantic_availability_machine {V : Type} (mInit loaded : Bool)
    (st : ProcState V) (entries : List (VecEntry V)) (e : String)
    (db : BearDb) (embed : String → Option V) :
    (initTransition true true = SemState.available) ∧
    (initTransition false loaded = SemState.unavailable) ∧
    (initTransition mInit false = SemState.unavailable) ∧
    ((reindexStep st (Except.error e)).1 = st) ∧
    ((reindexStep st (Except.ok entries)).1.hasSemanticSearch =
      st.hasSemanticSearch ∧
     (reindexStep st (Except.error e)).1.hasSemanticSearch =
      st.hasSemanticSearch) ∧
    ((reindexStep st (Except.ok entries)).1.index = entries) ∧
    (loadVectorIndex (reindexStep st (Except.ok entries)).1.persisted = true) ∧
    (initializeServer true
      (loadVectorIndex (reindexStep st (Except.ok entries)).1.persisted) = true) ∧
    (createVectorIndex db false embed =
      Except.error "Embedding model not available") := by
  refine ⟨rfl, rfl, ?_, rfl, ⟨rfl, rfl⟩, rfl, rfl, rfl, rfl⟩
  cases mInit <;> rfl

/-- C9: per-request failures are reported as structured failure results to
the single caller: a rejected search query, a rejected partial-id query, a
rejected note retrieval, and a not-found identifier each produce a result
value with a descriptive text, and the search handler is total over all
outcomes. -/
theorem per_request_failure_reported (u : Bool) (e frag id : String)
    (tl : String → Except String (List String)) (db : BearDb)
    (outcome : Except String (List SearchHit)) :
    (searchNotesHandler u (Except.error e) = { text := "Search failed: " ++ e }) ∧
    (findNoteByPartialIdHandler tl frag (Except.error e) =
      { text := "Search failed: " ++ e }) ∧
    (getNoteHandler (Except.error e) =
      { text := "Error retrieving note: " ++ e }) ∧
    (findById db id = none →
      getNoteHandler (retrieveNote db id) =
        { text := "Error retrieving note: " ++
            ("Note with ID " ++ id ++ " not found") }) ∧
    (∃ t, searchNotesHandler u outcome = { text := t }) := by
  refine ⟨rfl, rfl, rfl, ?_, ?_⟩
  · intro h
    simp [retrieveNote, getNoteHandler, h]
  · cases outcome with
    | ok l => exact ⟨_, rfl⟩
    | error e2 => exact ⟨_, rfl⟩

/-- C9 witness: an unknown identifier in the sample database produces the
structured not-found text. -/
theorem per_request_failure_reported_witness :
    findById sampleDb "nope" = none ∧
    getNoteHandler (retrieveNote sampleDb "nope") =
      { text := "Error retrieving note: " ++
          ("Note with ID " ++ "nope" ++ " not found") } := by
  have h := per_request_failure_reported true "e" "frag" "nope"
    (dbTagLookup sampleDb) sampleDb (Except.ok [])
  have hn : findById sampleDb "nope" = none := by decide
  exact ⟨hn, h.2.2.2.1 hn⟩

/-- C10: the conversion step of `find_note_by_partial_id` is guarded on the
raw value being truthy: a NULL creation date stays NULL, a native value 0
is returned unconverted, and only a nonzero native value is converted to
the ISO UTC date-time; the annotation loop applies exactly this
conversion. -/
theorem creation_date_truthiness_guard (t : Int)
    (tl : String → Except String (List String)) (n : SelectedNote) :
    (convertCreation none = DateVal.null) ∧
    (convertCreation (some 0) = DateVal.native 0) ∧
    (t ≠ 0 → convertCreation (some t) = DateVal.iso (appleToISO t)) ∧
    ((annotateNote tl n).creation_date = convertCreation n.creation_date) := by
  refine ⟨rfl, by decide, ?_, rfl⟩
  intro h
  simp [convertCreation, h]

/-- C10 witness: the nonzero native value 31536000 is converted to its ISO
rendering. -/
theorem creation_date_truthiness_guard_witness :
    (31536000 : Int) ≠ 0 ∧
    convertCreation (some 31536000) = DateVal.iso (appleToISO 31536000) := by
  have h := creation_date_truthiness_guard 31536000 (dbTagLookup sampleDb)
    (toSelected noteA)
  exact ⟨by decide, h.2.2.1 (by decide)⟩

end BearMCP
